import Mathlib

/-!
Shallow embedding of the mcptube core (src/src/mcptube): the domain models
(models.py), the SQLite-backed repository (storage/sqlite.py), the Chroma
vector store (storage/vectorstore.py), the URL parser
(ingestion/youtube.py) and the orchestration service (service.py), together
with theorems settling the frozen claims about the resolver, the index and
the service invariants.

Modelling conventions: Python strings are Lean `String` over the ASCII
fragment (`str.isdigit`, `str.lower`, `str.strip` are embedded through
`Char.isDigit`, `Char.toLower`, `String.trim`, which agree with Python on
ASCII); timestamps (`added_at`, ISO-8601 text compared by SQLite's ORDER BY)
are `Nat` ordered numerically, which is order-isomorphic to the fixed-format
ISO strings; second offsets are `Int`; the SQLite table is a row list; the
Chroma collection is a fragment list.  External collaborators (yt-dlp
extraction, the LLM) are passed in as function arguments returning `Except`,
mirroring their typed-error contracts.
-/

/- models.py: Chapter -/
structure Chapter where
  title : String
  start : Int
deriving Repr, DecidableEq

/- models.py: TranscriptSegment; `end` is the computed field start + duration. -/
structure TranscriptSegment where
  start : Int
  duration : Int
  text : String
deriving Repr, DecidableEq

def TranscriptSegment.endTime (s : TranscriptSegment) : Int :=
  s.start + s.duration

/- models.py: Video.  Field defaults mirror the pydantic model. -/
structure Video where
  video_id : String
  title : String
  description : String := ""
  channel : String := ""
  duration : Int := 0
  thumbnail_url : String := ""
  chapters : List Chapter := []
  transcript : List TranscriptSegment := []
  tags : List String := []
  added_at : Nat
deriving Repr, DecidableEq

/- String helpers embedding the Python primitives used by the core. -/

/-- Python list/str prefix test used to build substring containment. -/
def listStartsWith : List Char → List Char → Bool
  | [], _ => true
  | _ :: _, [] => false
  | a :: as, b :: bs => a == b && listStartsWith as bs

/-- Python `needle in hay` on strings: substring containment. -/
def listContainsSub (needle : List Char) : List Char → Bool
  | [] => listStartsWith needle []
  | c :: rest => listStartsWith needle (c :: rest) || listContainsSub needle rest

/-- Python `needle in hay` lifted to `String`. -/
def strContainsSub (hay needle : String) : Bool :=
  listContainsSub needle.data hay.data

/-- Python `str.lower` (ASCII fragment). -/
def strLower (s : String) : String :=
  String.mk (s.data.map Char.toLower)

/-- Python `str.isdigit` (ASCII fragment): non-empty and all decimal digits. -/
def pyIsDigit (s : String) : Bool :=
  !s.isEmpty && s.data.all Char.isDigit

/-- Python `int(s)` for an all-decimal-digit string. -/
def digitsToNat (s : String) : Nat :=
  s.data.foldl (fun acc c => acc * 10 + (c.toNat - 48)) 0

/-- Python whitespace (ASCII fragment stripped by `str.strip`). -/
def pyIsSpace (c : Char) : Bool :=
  c == ' ' || c == '\t' || c == '\n' || c == '\r' || c == '\x0b' || c == '\x0c'

/-- Python `str.strip()`: drop leading and trailing whitespace. -/
def strTrim (s : String) : String :=
  String.mk (((s.data.dropWhile pyIsSpace).reverse.dropWhile pyIsSpace).reverse)

/-- A single-quote character, used in the ambiguity message. -/
def squote : String :=
  String.singleton (Char.ofNat 39)

namespace SQLiteVideoRepository

/- storage/sqlite.py: the `videos` table is a list of rows (full records). -/

/-- `save`: INSERT .. ON CONFLICT(video_id) DO UPDATE SET of every column
except `added_at` — the stored creation timestamp survives an upsert. -/
def save (repo : List Video) (v : Video) : List Video :=
  if repo.any (fun r => r.video_id == v.video_id) then
    repo.map (fun r =>
      if r.video_id == v.video_id then { v with added_at := r.added_at } else r)
  else
    repo ++ [v]

/-- `get`: SELECT * WHERE video_id = ?, full record (include_transcript=True). -/
def get (repo : List Video) (id : String) : Option Video :=
  repo.find? (fun r => r.video_id == id)

/-- `_row_to_video` with include_transcript=False: transcript and chapters
are left empty in listings. -/
def projectMeta (v : Video) : Video :=
  { v with transcript := [], chapters := [] }

/-- ORDER BY added_at DESC: most recently added first. -/
def addedDesc (a b : Video) : Prop :=
  b.added_at ≤ a.added_at

instance : DecidableRel addedDesc := fun a b => Nat.decLe _ _

instance : IsTotal Video addedDesc :=
  ⟨fun a b => (Nat.le_total a.added_at b.added_at).symm⟩

instance : IsTrans Video addedDesc :=
  ⟨fun _ _ _ hab hbc => Nat.le_trans hbc hab⟩

/-- `list_all`: full scan ordered by added_at descending, metadata only. -/
def list_all (repo : List Video) : List Video :=
  (List.insertionSort addedDesc repo).map projectMeta

/-- `delete`: DELETE WHERE video_id = ?; no-op when absent. -/
def delete (repo : List Video) (id : String) : List Video :=
  repo.filter (fun r => !(r.video_id == id))

/-- `exists`: SELECT 1 WHERE video_id = ? LIMIT 1 (named existsVideo since
`exists` is a Lean keyword). -/
def existsVideo (repo : List Video) (id : String) : Bool :=
  repo.any (fun r => r.video_id == id)

end SQLiteVideoRepository

/- storage/vectorstore.py: a stored Chroma entry — document text, metadata
(video_id, start, end, segment_index) and the id string "{video_id}_{i}". -/
structure Fragment where
  fid : String
  text : String
  video_id : String
  start : Int
  endTime : Int
  segment_index : Nat
deriving Repr, DecidableEq

namespace ChromaVectorStore

/-- `_BATCH_SIZE = 500` — ChromaDB add batch limit. -/
def BATCH_SIZE : Nat := 500

/-- `delete_video`: collection.delete(where video_id == vid); an engine
exception is swallowed (try/except pass), so deleting nothing is a no-op. -/
def delete_video (state : List Fragment) (vid : String) : List Fragment :=
  state.filter (fun f => !(f.video_id == vid))

/-- The fragment built for segment `seg` at enumeration index `i`:
document = stripped text, id = "{video_id}_{i}", metadata carries the
original start, derived end and segment_index. -/
def segFragment (vid : String) (i : Nat) (seg : TranscriptSegment) : Fragment :=
  { fid := vid ++ "_" ++ toString i
    text := strTrim seg.text
    video_id := vid
    start := seg.start
    endTime := seg.start + seg.duration
    segment_index := i }

/-- The `for i, seg in enumerate(segments)` loop of index_video, carrying the
running enumeration index: a segment whose stripped text is empty is
skipped (`continue`), every other segment contributes one fragment. -/
def buildFrom (vid : String) (i : Nat) : List TranscriptSegment → List Fragment
  | [] => []
  | seg :: rest =>
    if (strTrim seg.text).isEmpty then buildFrom vid (i + 1) rest
    else segFragment vid i seg :: buildFrom vid (i + 1) rest

/-- The documents/metadatas/ids triple accumulated by index_video, as a
fragment list (the three parallel lists zipped). -/
def buildFragments (vid : String) (segments : List TranscriptSegment) : List Fragment :=
  buildFrom vid 0 segments

/-- The chunked-add loop: `for batch_start in range(0, len(documents),
_BATCH_SIZE)` — each iteration adds one slice of at most BATCH_SIZE
fragments to the collection and accumulates the slice length. -/
def addChunks : List Fragment → List Fragment → List Fragment × Nat
  | state, [] => (state, 0)
  | state, f :: rest =>
    let batch := (f :: rest).take BATCH_SIZE
    let r := addChunks (state ++ batch) ((f :: rest).drop BATCH_SIZE)
    (r.1, batch.length + r.2)
termination_by state frags => frags.length
decreasing_by simp [BATCH_SIZE]; omega

/-- `index_video`: empty segment list is a no-op returning 0; otherwise
delete the video's existing fragments, build the skip-filtered fragment
list, and add it in chunks, returning the number added. -/
def index_video (state : List Fragment) (vid : String)
    (segments : List TranscriptSegment) : List Fragment × Nat :=
  if segments.isEmpty then (state, 0)
  else addChunks (delete_video state vid) (buildFragments vid segments)

end ChromaVectorStore

namespace YouTubeExtractor

/- ingestion/youtube.py: parse_video_id tries four regular expressions, each
capturing eleven word-or-hyphen characters after a literal marker
("youtube.com/watch?...v=", "youtu.be/", "youtube.com/embed/",
"youtube.com/v/"), then falls back to query-string parsing.  The regex tiers
are embedded below (re.search leftmost-match; the greedy `.*` of the first
pattern selects the last "v=" candidate); the urlparse/parse_qs fallback is
modelled as failure — no claim depends on it and every witness below uses a
URL matched by the regex tiers. -/

/-- A regex `[\w-]` character (ASCII fragment of Python `\w` plus hyphen). -/
def wordChar (c : Char) : Bool :=
  c.isAlpha || c.isDigit || c == '_' || c == '-'

/-- Capture `([\w-]{11})` at the head of the list, if present. -/
def take11Word (l : List Char) : Option (List Char) :=
  let pre := l.take 11
  if pre.length == 11 && pre.all wordChar then some pre else none

/-- re.search for a pattern `lit([\w-]{11})`: leftmost position where the
literal is followed by eleven word characters. -/
def matchLitThenId (lit : List Char) : List Char → Option (List Char)
  | [] => if listStartsWith lit [] then take11Word (List.drop lit.length []) else none
  | c :: rest =>
    match (if listStartsWith lit (c :: rest)
           then take11Word ((c :: rest).drop lit.length) else none) with
    | some id => some id
    | none => matchLitThenId lit rest

/-- The last position where `v=([\w-]{11})` matches (the greedy `.*`). -/
def lastVId : List Char → Option (List Char)
  | [] => none
  | c :: rest =>
    match lastVId rest with
    | some id => some id
    | none =>
      if listStartsWith ['v', '='] (c :: rest)
      then take11Word ((c :: rest).drop 2) else none

/-- re.search for `(?:youtube\.com/watch\?.*v=)([\w-]{11})`. -/
def matchWatch (lit : List Char) : List Char → Option (List Char)
  | [] => none
  | c :: rest =>
    match (if listStartsWith lit (c :: rest)
           then lastVId ((c :: rest).drop lit.length) else none) with
    | some id => some id
    | none => matchWatch lit rest

/-- `parse_video_id`: the four regex tiers in source order. -/
def parse_video_id (url : String) : Option String :=
  match matchWatch "youtube.com/watch?".data url.data with
  | some id => some (String.mk id)
  | none =>
    match matchLitThenId "youtu.be/".data url.data with
    | some id => some (String.mk id)
    | none =>
      match matchLitThenId "youtube.com/embed/".data url.data with
      | some id => some (String.mk id)
      | none =>
        match matchLitThenId "youtube.com/v/".data url.data with
        | some id => some (String.mk id)
        | none => none

end YouTubeExtractor

/- service.py: error taxonomy of the orchestration layer. -/
inductive ServiceError
  | videoNotFound (msg : String)
  | videoAlreadyExists (msg : String)
  | ambiguousVideo (msg : String)
  | extractionFailed
  | llmFailed
  | runtimeFailure (msg : String)
deriving Repr, DecidableEq

/- resolve_video either returns a video, or raises, or — on the internal
`return self._repo.get(...)` calls — would hand back Python's None; the
third constructor records that (provably unreachable) outcome. -/
inductive ResolveResult
  | found (v : Video)
  | noneReturned
  | err (e : ServiceError)
deriving Repr, DecidableEq

/- The mutable resources owned by one McpTubeService: the repository rows,
the optional vector-store collection, and whether an LLM is configured
(`self._llm.available`). -/
structure ServiceState where
  repo : List Video
  vectorstore : Option (List Fragment)
  llmAvailable : Bool
deriving Repr, DecidableEq

namespace McpTubeService

open SQLiteVideoRepository ChromaVectorStore

/-- The tier-3 ambiguity message: "Multiple videos match '{query}':" then
one line "  {i+1}. {title}" per match, joined by newlines. -/
def mkAmbiguousMsg (query : String) (matchedVids : List Video) : String :=
  "Multiple videos match " ++ squote ++ query ++ squote ++ ":\n" ++
    String.intercalate "\n"
      (matchedVids.enum.map (fun p => "  " ++ toString (p.1 + 1) ++ ". " ++ p.2.title))

/-- `resolve_video`: tier 1 exact id; tier 2 numeric index into list_all
(1-based, most recent first); tier 3 case-insensitive substring on
title/channel; then NotFound. -/
def resolve_video (repo : List Video) (query : String) : ResolveResult :=
  match SQLiteVideoRepository.get repo query with
  | some v => .found v
  | none =>
    if pyIsDigit query then
      let videos := list_all repo
      let idx : Int := (digitsToNat query : Int) - 1
      if h : 0 ≤ idx ∧ idx < (videos.length : Int) then
        match SQLiteVideoRepository.get repo (videos.get ⟨idx.toNat, by omega⟩).video_id with
        | some v => .found v
        | none => .noneReturned
      else
        .err (.videoNotFound ("Index " ++ query ++ " out of range. Library has "
          ++ toString videos.length ++ " video(s)."))
    else
      let videos := list_all repo
      let q := strLower query
      let matchedVids := videos.filter
        (fun v => strContainsSub (strLower v.title) q || strContainsSub (strLower v.channel) q)
      if h1 : matchedVids.length = 1 then
        match SQLiteVideoRepository.get repo (matchedVids.get ⟨0, by omega⟩).video_id with
        | some v => .found v
        | none => .noneReturned
      else if 1 < matchedVids.length then
        .err (.ambiguousVideo (mkAmbiguousMsg query matchedVids))
      else
        .err (.videoNotFound ("No video matching: " ++ query))

/-- `add_video`: parse the id; reject a duplicate before extraction; extract;
save; index the transcript when a vector store is present and the transcript
is non-empty; then best-effort auto-classification (an LLMError is caught
and the add still succeeds).  `extract` and `classify` are the injected
collaborators. -/
def add_video (st : ServiceState) (url : String)
    (extract : String → Except Unit Video)
    (classify : String → String → String → Except Unit (List String)) :
    ServiceState × Except ServiceError Video :=
  match YouTubeExtractor.parse_video_id url with
  | none => (st, .error .extractionFailed)
  | some vid =>
    if existsVideo st.repo vid then
      (st, .error (.videoAlreadyExists ("Video already in library: " ++ vid
        ++ ". Use remove_video() first to re-ingest.")))
    else
      match extract url with
      | .error _ => (st, .error .extractionFailed)
      | .ok video =>
        let repo1 := save st.repo video
        let vs1 : Option (List Fragment) :=
          match st.vectorstore with
          | none => none
          | some frs =>
            if video.transcript.isEmpty then some frs
            else some (index_video frs video.video_id video.transcript).1
        if st.llmAvailable then
          match classify video.title video.description video.channel with
          | .ok tags =>
            let video2 := { video with tags := tags }
            ({ repo := save repo1 video2, vectorstore := vs1,
               llmAvailable := st.llmAvailable }, .ok video2)
          | .error _ =>
            ({ repo := repo1, vectorstore := vs1,
               llmAvailable := st.llmAvailable }, .ok video)
        else
          ({ repo := repo1, vectorstore := vs1,
             llmAvailable := st.llmAvailable }, .ok video)

/-- `remove_video`: reject when absent; otherwise delete the store record
first, then purge the vector store.  `purgeRaises` models the engine's
delete raising inside ChromaVectorStore.delete_video (which swallows the
exception, leaving the collection as it was); either way the service call
returns normally with the store record already gone. -/
def remove_video (st : ServiceState) (vid : String) (purgeRaises : Bool) :
    ServiceState × Option ServiceError :=
  if !(existsVideo st.repo vid) then
    (st, some (.videoNotFound ("Video not found: " ++ vid)))
  else
    let repo2 := SQLiteVideoRepository.delete st.repo vid
    match st.vectorstore with
    | none => ({ st with repo := repo2 }, none)
    | some frs =>
      let frs2 := if purgeRaises then frs else delete_video frs vid
      ({ st with repo := repo2, vectorstore := some frs2 }, none)

/-- `classify_video`: get_info (NotFound when absent); require an available
LLM; classify (an LLMError propagates); overwrite the tag set and re-save. -/
def classify_video (st : ServiceState) (vid : String)
    (classify : String → String → String → Except Unit (List String)) :
    ServiceState × Except ServiceError (List String) :=
  match SQLiteVideoRepository.get st.repo vid with
  | none => (st, .error (.videoNotFound ("Video not found: " ++ vid)))
  | some video =>
    if !st.llmAvailable then
      (st, .error (.runtimeFailure "Classification requires an LLM. Set an API key."))
    else
      match classify video.title video.description video.channel with
      | .error _ => (st, .error .llmFailed)
      | .ok tags =>
        let video2 := { video with tags := tags }
        ({ st with repo := save st.repo video2 }, .ok tags)

end McpTubeService

/- Concrete inputs used by the witnesses and counterexamples below. -/

def vidA : Video :=
  { video_id := "aaaaaaaaaaa", title := "Deep Learning Intro", channel := "EduCh", added_at := 1 }

def vidB : Video :=
  { video_id := "bbbbbbbbbbb", title := "AI Debate", channel := "Deep Channel", added_at := 2 }

def vidC : Video :=
  { video_id := "ccccccccccc", title := "Rust 101", channel := "SysProg", added_at := 3 }

def vidD : Video :=
  { video_id := "123", title := "Numeric Id", channel := "Misc", added_at := 4 }

def wRepo : List Video := [vidA, vidB, vidC, vidD]

def wFrags : List Fragment :=
  [{ fid := "aaaaaaaaaaa_0", text := "x", video_id := "aaaaaaaaaaa",
     start := 0, endTime := 1, segment_index := 0 }]

def wState : ServiceState :=
  { repo := wRepo, vectorstore := some wFrags, llmAvailable := false }

def wStateLLM : ServiceState :=
  { repo := wRepo, vectorstore := some wFrags, llmAvailable := true }

def segHello : TranscriptSegment := { start := 0, duration := 1, text := "hello" }

def segWorld : TranscriptSegment := { start := 3, duration := 1, text := "world" }

def wNewVideo : Video :=
  { video_id := "ddddddddddd", title := "Fresh", channel := "NewCh", added_at := 9 }

def wExtract : String → Except Unit Video := fun _ => .ok wNewVideo

def wClassifyFail : String → String → String → Except Unit (List String) :=
  fun _ _ _ => .error ()

def wClassifyOk : String → String → String → Except Unit (List String) :=
  fun _ _ _ => .ok ["ml", "intro"]

def vidA2 : Video :=
  { video_id := "aaaaaaaaaaa", title := "Retagged Intro", description := "new d",
    channel := "EduCh2", duration := 42, thumbnail_url := "t.jpg",
    tags := ["x", "y"], added_at := 77 }

def segBlank : TranscriptSegment := { start := 1, duration := 2, text := "  " }

def segs501 : List TranscriptSegment := List.replicate 501 segHello

/-- The tier-3 match list of resolve_video: the listed entities whose
lowercased title or lowercased channel contains the lowercased query. -/
def substringMatches (repo : List Video) (q : String) : List Video :=
  (SQLiteVideoRepository.list_all repo).filter
    (fun v => strContainsSub (strLower v.title) (strLower q)
           || strContainsSub (strLower v.channel) (strLower q))

/- Helper lemmas about the embedded operations. -/

namespace SQLiteVideoRepository

theorem projectMeta_video_id (v : Video) : (projectMeta v).video_id = v.video_id := rfl

theorem list_all_length (repo : List Video) : (list_all repo).length = repo.length := by
  simp only [list_all, List.length_map]
  exact (List.perm_insertionSort addedDesc repo).length_eq

theorem mem_list_all (repo : List Video) (w : Video) (h : w ∈ list_all repo) :
    ∃ r ∈ repo, projectMeta r = w := by
  simp only [list_all, List.mem_map] at h
  obtain ⟨r, hr, hw⟩ := h
  exact ⟨r, (List.perm_insertionSort addedDesc repo).mem_iff.mp hr, hw⟩

theorem list_all_sorted (repo : List Video) : (list_all repo).Sorted addedDesc := by
  have hs := List.sorted_insertionSort addedDesc repo
  exact List.Pairwise.map projectMeta (fun _ _ hab => hab) hs

theorem get_of_hasId (repo : List Video) (id : String)
    (h : ∃ r ∈ repo, r.video_id = id) :
    ∃ u, get repo id = some u ∧ u.video_id = id ∧ u ∈ repo := by
  obtain ⟨r, hr, hid⟩ := h
  have hsome : (repo.find? (fun r => r.video_id == id)).isSome := by
    rw [List.find?_isSome]
    exact ⟨r, hr, by simp [hid]⟩
  obtain ⟨u, hu⟩ := Option.isSome_iff_exists.mp hsome
  refine ⟨u, hu, ?_, List.mem_of_find?_eq_some hu⟩
  have := List.find?_some hu
  simpa using this

theorem existsVideo_delete (repo : List Video) (id : String) :
    existsVideo (delete repo id) id = false := by
  simp only [existsVideo, delete]
  rw [List.any_eq_false]
  intro r hr
  have := (List.mem_filter.mp hr).2
  simpa using this

theorem find?_map_update (l : List Video) (v r : Video)
    (h : l.find? (fun x => x.video_id == v.video_id) = some r) :
    (l.map (fun x =>
        if x.video_id == v.video_id then { v with added_at := x.added_at } else x)).find?
        (fun x => x.video_id == v.video_id) = some { v with added_at := r.added_at } := by
  induction l with
  | nil => simp at h
  | cons x xs ih =>
    cases hx : (x.video_id == v.video_id) with
    | true =>
      have h2 := h
      rw [List.find?_cons, hx] at h2
      have hxr : x = r := Option.some.inj h2
      subst hxr
      have heq : x.video_id = v.video_id := by simpa using hx
      simp [List.find?_cons, heq]
    | false =>
      have h2 := h
      rw [List.find?_cons, hx] at h2
      have hif : (if x.video_id == v.video_id
          then { v with added_at := x.added_at } else x) = x := by
        simp [hx]
      rw [List.map_cons, hif, List.find?_cons, hx]
      exact ih h2

theorem find?_append_new (l : List Video) (v : Video)
    (h : l.any (fun x => x.video_id == v.video_id) = false) :
    (l ++ [v]).find? (fun x => x.video_id == v.video_id) = some v := by
  induction l with
  | nil => simp
  | cons x xs ih =>
    simp only [List.any_cons, Bool.or_eq_false_iff] at h
    rw [List.cons_append, List.find?_cons, h.1]
    exact ih h.2

theorem get_save_same (repo : List Video) (v r : Video)
    (h : get repo v.video_id = some r) :
    get (save repo v) v.video_id = some { v with added_at := r.added_at } := by
  have h' : repo.find? (fun x => x.video_id == v.video_id) = some r := h
  have hany : repo.any (fun x => x.video_id == v.video_id) = true := by
    rw [List.any_eq_true]
    have hpred := List.find?_some h'
    exact ⟨r, List.mem_of_find?_eq_some h', hpred⟩
  show (save repo v).find? (fun x => x.video_id == v.video_id) = _
  simp only [save, hany, if_true]
  exact find?_map_update repo v r h'

theorem get_save_new (repo : List Video) (v : Video)
    (h : existsVideo repo v.video_id = false) :
    get (save repo v) v.video_id = some v := by
  have h' : repo.any (fun x => x.video_id == v.video_id) = false := h
  show (save repo v).find? (fun x => x.video_id == v.video_id) = _
  simp only [save, h', Bool.false_eq_true, if_false]
  exact find?_append_new repo v h'

end SQLiteVideoRepository

namespace ChromaVectorStore

theorem addChunks_spec (state frags : List Fragment) :
    addChunks state frags = (state ++ frags, frags.length) := by
  induction state, frags using addChunks.induct with
  | case1 st => simp [addChunks]
  | case2 st f rest batch ih =>
    rw [addChunks]
    simp only [ih, Prod.mk.injEq]
    constructor
    · rw [List.append_assoc]
      congr 1
      exact List.take_append_drop BATCH_SIZE (f :: rest)
    · simp [List.length_take, List.length_drop, BATCH_SIZE]
      omega

theorem buildFrom_owner (vid : String) (i : Nat) (segs : List TranscriptSegment)
    (f : Fragment) (h : f ∈ buildFrom vid i segs) : f.video_id = vid := by
  induction segs generalizing i with
  | nil => simp [buildFrom] at h
  | cons seg rest ih =>
    simp only [buildFrom] at h
    split at h
    · exact ih _ h
    · rcases List.mem_cons.mp h with h1 | h1
      · rw [h1]; rfl
      · exact ih _ h1

theorem buildFrom_length (vid : String) (i : Nat) (segs : List TranscriptSegment) :
    (buildFrom vid i segs).length =
      (segs.filter (fun s => !((strTrim s.text).isEmpty))).length := by
  induction segs generalizing i with
  | nil => rfl
  | cons seg rest ih =>
    by_cases hb : (strTrim seg.text).isEmpty <;>
      simp [buildFrom, List.filter_cons, hb, ih]

theorem mem_buildFrom_iff (vid : String) (k : Nat) (segs : List TranscriptSegment)
    (f : Fragment) :
    f ∈ buildFrom vid k segs ↔
      ∃ j seg, segs[j]? = some seg ∧ (strTrim seg.text).isEmpty = false ∧
        f = segFragment vid (k + j) seg := by
  induction segs generalizing k with
  | nil => simp [buildFrom]
  | cons seg rest ih =>
    by_cases hb : (strTrim seg.text).isEmpty
    · have hstep : buildFrom vid k (seg :: rest) = buildFrom vid (k + 1) rest := by
        simp [buildFrom, hb]
      rw [hstep, ih (k + 1)]
      constructor
      · rintro ⟨j, s, hj, hnb, hf⟩
        exact ⟨j + 1, s, by simpa using hj, hnb, by
          rw [hf]; congr 1; omega⟩
      · rintro ⟨j, s, hj, hnb, hf⟩
        match j with
        | 0 =>
          simp only [List.getElem?_cons_zero] at hj
          rw [Option.some.inj hj] at hb
          rw [hb] at hnb
          cases hnb
        | j' + 1 =>
          refine ⟨j', s, by simpa using hj, hnb, ?_⟩
          rw [hf]; congr 1; omega
    · have hstep : buildFrom vid k (seg :: rest) =
          segFragment vid k seg :: buildFrom vid (k + 1) rest := by
        simp [buildFrom, hb]
      rw [hstep, List.mem_cons, ih (k + 1)]
      constructor
      · rintro (hf | ⟨j, s, hj, hnb, hf⟩)
        · exact ⟨0, seg, by simp, by simpa using hb, by simpa using hf⟩
        · exact ⟨j + 1, s, by simpa using hj, hnb, by rw [hf]; congr 1; omega⟩
      · rintro ⟨j, s, hj, hnb, hf⟩
        match j with
        | 0 =>
          left
          simp only [List.getElem?_cons_zero] at hj
          rw [← Option.some.inj hj] at hf
          simpa using hf
        | j' + 1 =>
          right
          refine ⟨j', s, by simpa using hj, hnb, ?_⟩
          rw [hf]; congr 1; omega

theorem filter_owner_index (st : List Fragment) (vid : String)
    (segs : List TranscriptSegment) (h : segs ≠ []) :
    ((index_video st vid segs).1.filter (fun f => f.video_id == vid)) =
      buildFragments vid segs := by
  rw [index_video, if_neg (by simpa using h), addChunks_spec, List.filter_append]
  have h1 : (delete_video st vid).filter (fun f => f.video_id == vid) = [] := by
    rw [List.filter_eq_nil_iff]
    intro f hf
    have := (List.mem_filter.mp hf).2
    simpa using this
  have h2 : (buildFragments vid segs).filter (fun f => f.video_id == vid) =
      buildFragments vid segs := by
    rw [List.filter_eq_self]
    intro f hf
    simp [buildFrom_owner vid 0 segs f hf]
  rw [h1, h2, List.nil_append]

theorem index_video_count (st : List Fragment) (vid : String)
    (segs : List TranscriptSegment) :
    (index_video st vid segs).2 =
      (segs.filter (fun s => !((strTrim s.text).isEmpty))).length := by
  rw [index_video]
  by_cases h : segs.isEmpty
  · rw [if_pos h]
    cases segs with
    | nil => rfl
    | cons a l => simp at h
  · rw [if_neg h, addChunks_spec]
    exact buildFrom_length vid 0 segs

end ChromaVectorStore

/- The claim theorems. -/

open SQLiteVideoRepository ChromaVectorStore McpTubeService

/-- C1: an all-digit query that is not a stored identifier is read as a
1-based position into the listing ordered by descending creation timestamp
(whose length equals the store's population); positions inside [1, count]
return the entity at that position of the descending listing, and position
0 or any position beyond the count fails with a NotFound message reporting
the number of stored entities — the query never reaches the substring
tier. -/
theorem resolve_all_digits_positional (repo : List Video) (q : String)
    (hdig : pyIsDigit q = true)
    (hid : SQLiteVideoRepository.get repo q = none) :
    ((list_all repo).length = repo.length) ∧
    ((list_all repo).Sorted addedDesc) ∧
    (∀ w, (list_all repo)[digitsToNat q - 1]? = some w →
      1 ≤ digitsToNat q →
      ∃ v, resolve_video repo q = .found v ∧ v ∈ repo ∧ v.video_id = w.video_id) ∧
    (digitsToNat q = 0 ∨ (list_all repo).length < digitsToNat q →
      resolve_video repo q = .err (.videoNotFound
        ("Index " ++ q ++ " out of range. Library has "
          ++ toString (list_all repo).length ++ " video(s).")))  := by
  refine ⟨list_all_length repo, list_all_sorted repo, ?_, ?_⟩
  · intro w hw h1
    obtain ⟨hlt, helem⟩ := List.getElem?_eq_some.mp hw
    have hmem : w ∈ list_all repo := by
      rw [← helem]
      exact List.getElem_mem hlt
    obtain ⟨r, hr, hpr⟩ := mem_list_all repo w hmem
    obtain ⟨u, hu, huid, humem⟩ := get_of_hasId repo w.video_id
      ⟨r, hr, by rw [← hpr]; rfl⟩
    refine ⟨u, ?_, humem, huid⟩
    unfold resolve_video
    rw [hid]
    simp only [hdig, if_true]
    have hc : (0 : Int) ≤ (digitsToNat q : Int) - 1 ∧
        (digitsToNat q : Int) - 1 < ((list_all repo).length : Int) := by omega
    rw [dif_pos hc]
    have hidx : ((digitsToNat q : Int) - 1).toNat = digitsToNat q - 1 := by omega
    simp only [List.get_eq_getElem, hidx, helem, hu]
  · intro hout
    unfold resolve_video
    rw [hid]
    simp only [hdig, if_true]
    rw [dif_neg]
    omega

/-- C1 witness: query "2" on a four-entity store. -/
theorem resolve_all_digits_positional_witness :
    ((list_all wRepo).length = wRepo.length) ∧
    ((list_all wRepo).Sorted addedDesc) ∧
    (∀ w, (list_all wRepo)[digitsToNat "2" - 1]? = some w →
      1 ≤ digitsToNat "2" →
      ∃ v, resolve_video wRepo "2" = .found v ∧ v ∈ wRepo ∧ v.video_id = w.video_id) ∧
    (digitsToNat "2" = 0 ∨ (list_all wRepo).length < digitsToNat "2" →
      resolve_video wRepo "2" = .err (.videoNotFound
        ("Index " ++ "2" ++ " out of range. Library has "
          ++ toString (list_all wRepo).length ++ " video(s).")))  :=
  resolve_all_digits_positional wRepo "2" (by decide) (by decide)

/-- C2 counterexample: the claim quantifies over every pair of segment
lists, but index with an empty second list is a no-op, so the fragment
from the first call survives and the owned-fragment count is 1, not
len([]) = 0. -/
theorem index_twice_counterexample :
    ¬ (((index_video (index_video [] "v" [segHello]).1 "v"
          ([] : List TranscriptSegment)).1.filter
            (fun f => f.video_id == "v")).length =
        ([] : List TranscriptSegment).length) := by
  intro hcontra
  have e0 : index_video (index_video [] "v" [segHello]).1 "v"
      ([] : List TranscriptSegment) = ((index_video [] "v" [segHello]).1, 0) := rfl
  rw [e0] at hcontra
  have hnb : (strTrim segHello.text).isEmpty = false := by decide
  have e1 : (index_video [] "v" [segHello]).1 = [segFragment "v" 0 segHello] := by
    rw [index_video, if_neg (by simp), addChunks_spec]
    simp [delete_video, buildFragments, buildFrom, hnb]
  rw [e1] at hcontra
  simp [segFragment] at hcontra

/-- C2 amended: for every identifier, every first segment list and every
non-empty second segment list of well-formed segments (text non-empty
after trimming, the data-model invariant), indexing twice leaves exactly
the second list's fragments owned by the identifier — len(s2) of them and
none surviving from the first call. -/
theorem index_twice_replaces (vid : String) (s1 s2 : List TranscriptSegment)
    (st : List Fragment) (h2 : s2 ≠ [])
    (hw : ∀ s ∈ s2, (strTrim s.text).isEmpty = false) :
    ((index_video (index_video st vid s1).1 vid s2).1.filter
        (fun f => f.video_id == vid)) = buildFragments vid s2 ∧
    ((index_video (index_video st vid s1).1 vid s2).1.filter
        (fun f => f.video_id == vid)).length = s2.length := by
  have h1 := filter_owner_index (index_video st vid s1).1 vid s2 h2
  refine ⟨h1, ?_⟩
  rw [h1, buildFragments, buildFrom_length]
  have hself : s2.filter (fun s => !((strTrim s.text).isEmpty)) = s2 := by
    rw [List.filter_eq_self]
    intro a ha
    simp [hw a ha]
  rw [hself]

/-- C2 witness: re-indexing one segment over a different one. -/
theorem index_twice_replaces_witness :
    ((index_video (index_video [] "v" [segWorld]).1 "v" [segHello]).1.filter
        (fun f => f.video_id == "v")) = buildFragments "v" [segHello] ∧
    ((index_video (index_video [] "v" [segWorld]).1 "v" [segHello]).1.filter
        (fun f => f.video_id == "v")).length = [segHello].length :=
  index_twice_replaces "v" [segWorld] [segHello] [] (by simp)
    (by intro s hs; rw [List.mem_singleton.mp hs]; decide)

/-- C3: for a query that is neither a stored identifier nor all-digits,
an entity is a tier-3 match exactly when the lowercased query is a
substring of its lowercased title or channel; zero matches yield NotFound,
one match returns that entity, and several matches yield an Ambiguous
error whose message lists every matching title, 1-indexed, in encounter
order. -/
theorem resolve_substring_tier (repo : List Video) (q : String)
    (hdig : pyIsDigit q = false)
    (hid : SQLiteVideoRepository.get repo q = none) :
    (∀ v, v ∈ substringMatches repo q ↔ v ∈ list_all repo ∧
        (strContainsSub (strLower v.title) (strLower q)
          || strContainsSub (strLower v.channel) (strLower q)) = true) ∧
    (substringMatches repo q = [] →
      resolve_video repo q = .err (.videoNotFound ("No video matching: " ++ q))) ∧
    (∀ m, substringMatches repo q = [m] →
      ∃ v, resolve_video repo q = .found v ∧ v ∈ repo ∧ v.video_id = m.video_id) ∧
    (2 ≤ (substringMatches repo q).length →
      resolve_video repo q =
        .err (.ambiguousVideo (mkAmbiguousMsg q (substringMatches repo q)))) := by
  refine ⟨fun v => by simp [substringMatches, List.mem_filter], ?_, ?_, ?_⟩
  · intro hm
    rw [substringMatches] at hm
    unfold resolve_video
    rw [hid]
    simp only [hdig, Bool.false_eq_true, if_false]
    rw [dif_neg (by simp [hm])]
    rw [if_neg (by simp [hm])]
  · intro m hm
    rw [substringMatches] at hm
    have hmem : m ∈ list_all repo := by
      have hm1 : m ∈ [m] := List.mem_singleton.mpr rfl
      rw [← hm] at hm1
      exact (List.mem_filter.mp hm1).1
    obtain ⟨r, hr, hpr⟩ := mem_list_all repo m hmem
    obtain ⟨u, hu, huid, humem⟩ := get_of_hasId repo m.video_id
      ⟨r, hr, by rw [← hpr]; rfl⟩
    refine ⟨u, ?_, humem, huid⟩
    unfold resolve_video
    rw [hid]
    simp only [hdig, Bool.false_eq_true, if_false]
    rw [dif_pos (by rw [hm]; rfl)]
    simp only [hm, List.get_eq_getElem, List.getElem_cons_zero, hu]
  · intro h2
    rw [substringMatches] at h2
    unfold resolve_video
    rw [hid]
    simp only [hdig, Bool.false_eq_true, if_false]
    rw [dif_neg (by omega)]
    rw [if_pos (by omega)]
    rw [substringMatches]

/-- C3 witness: the two-way "deep" ambiguity (title of one entity,
channel of another). -/
theorem resolve_substring_tier_witness :
    (∀ v, v ∈ substringMatches wRepo "deep" ↔ v ∈ list_all wRepo ∧
        (strContainsSub (strLower v.title) (strLower "deep")
          || strContainsSub (strLower v.channel) (strLower "deep")) = true) ∧
    (substringMatches wRepo "deep" = [] →
      resolve_video wRepo "deep" = .err (.videoNotFound ("No video matching: " ++ "deep"))) ∧
    (∀ m, substringMatches wRepo "deep" = [m] →
      ∃ v, resolve_video wRepo "deep" = .found v ∧ v ∈ wRepo ∧ v.video_id = m.video_id) ∧
    (2 ≤ (substringMatches wRepo "deep").length →
      resolve_video wRepo "deep" =
        .err (.ambiguousVideo (mkAmbiguousMsg "deep" (substringMatches wRepo "deep")))) :=
  resolve_substring_tier wRepo "deep" (by decide) (by decide)

/-- C4: resolve on a stored identifier returns that entity from the
exact-identifier tier, short-circuiting the positional and substring
tiers. -/
theorem resolve_exact_id_short_circuits (repo : List Video) (id : String) (v : Video)
    (h : SQLiteVideoRepository.get repo id = some v) :
    resolve_video repo id = .found v := by
  unfold resolve_video
  rw [h]

/-- C4 witness: an all-digit stored identifier still resolves at tier 1. -/
theorem resolve_exact_id_short_circuits_witness :
    pyIsDigit "123" = true ∧ resolve_video wRepo "123" = .found vidD :=
  ⟨by decide, resolve_exact_id_short_circuits wRepo "123" vidD (by decide)⟩

/-- C5: remove_video on an absent identifier fails with NotFound and
changes nothing; on a present identifier it returns normally with the
store record already deleted, whether or not the index purge raised. -/
theorem remove_video_deletes_store_first (st : ServiceState) (vid : String)
    (purgeRaises : Bool) :
    (SQLiteVideoRepository.existsVideo st.repo vid = false →
      remove_video st vid purgeRaises =
        (st, some (.videoNotFound ("Video not found: " ++ vid)))) ∧
    (SQLiteVideoRepository.existsVideo st.repo vid = true →
      (remove_video st vid purgeRaises).2 = none ∧
      SQLiteVideoRepository.existsVideo
        (remove_video st vid purgeRaises).1.repo vid = false) := by
  constructor
  · intro h
    unfold remove_video
    rw [h]
    rfl
  · intro h
    unfold remove_video
    rw [h]
    cases hvs : st.vectorstore with
    | none => simp [hvs, SQLiteVideoRepository.existsVideo_delete]
    | some frs => simp [hvs, SQLiteVideoRepository.existsVideo_delete]

/-- C5 witness: removal with a raising purge still leaves the store
without the entity. -/
theorem remove_video_deletes_store_first_witness :
    (remove_video wState "aaaaaaaaaaa" true).2 = none ∧
    SQLiteVideoRepository.existsVideo
      (remove_video wState "aaaaaaaaaaa" true).1.repo "aaaaaaaaaaa" = false :=
  (remove_video_deletes_store_first wState "aaaaaaaaaaa" true).2 (by decide)

/-- C6: add_video with a URL whose parsed identifier is already stored
fails with AlreadyExists and leaves the whole state unchanged, whatever
the extraction and classification collaborators would do — extraction is
never invoked. -/
theorem add_video_duplicate_rejected (st : ServiceState) (url vid : String)
    (extract : String → Except Unit Video)
    (classify : String → String → String → Except Unit (List String))
    (hp : YouTubeExtractor.parse_video_id url = some vid)
    (hex : SQLiteVideoRepository.existsVideo st.repo vid = true) :
    add_video st url extract classify =
      (st, .error (.videoAlreadyExists ("Video already in library: " ++ vid
        ++ ". Use remove_video() first to re-ingest."))) := by
  unfold add_video
  simp [hp, hex]

/-- C6 witness: re-adding a stored video by URL. -/
theorem add_video_duplicate_rejected_witness :
    add_video wState "https://youtu.be/aaaaaaaaaaa" wExtract wClassifyOk =
      (wState, .error (.videoAlreadyExists ("Video already in library: " ++ "aaaaaaaaaaa"
        ++ ". Use remove_video() first to re-ingest."))) :=
  add_video_duplicate_rejected wState "https://youtu.be/aaaaaaaaaaa" "aaaaaaaaaaa"
    wExtract wClassifyOk (by decide) (by decide)

/-- C7: with a non-empty list of well-formed segments, index_video indexes
every segment even past the 500-item batch ceiling: the returned count is
the full segment count and the final collection is the one-shot append of
all fragments — chunk boundaries are invisible. -/
theorem index_video_chunking (st : List Fragment) (vid : String)
    (segs : List TranscriptSegment) (hne : segs ≠ [])
    (hw : ∀ s ∈ segs, (strTrim s.text).isEmpty = false) :
    (index_video st vid segs).2 = segs.length ∧
    (index_video st vid segs).1 =
      delete_video st vid ++ buildFragments vid segs := by
  constructor
  · rw [index_video_count]
    have hself : segs.filter (fun s => !((strTrim s.text).isEmpty)) = segs := by
      rw [List.filter_eq_self]
      intro a ha
      simp [hw a ha]
    rw [hself]
  · rw [index_video, if_neg (by simpa using hne), addChunks_spec]

/-- C7 witness: 501 segments against the 500-item ceiling. -/
theorem index_video_chunking_witness :
    BATCH_SIZE < segs501.length ∧
    ((index_video [] "v" segs501).2 = segs501.length ∧
     (index_video [] "v" segs501).1 =
       delete_video [] "v" ++ buildFragments "v" segs501) :=
  ⟨by simp only [segs501, List.length_replicate, BATCH_SIZE]; omega,
   index_video_chunking [] "v" segs501
     (by
       intro h
       have h2 := congrArg List.length h
       rw [show segs501.length = 501 from by
            simp only [segs501, List.length_replicate]] at h2
       simp at h2)
     (by
       intro s hs
       rw [segs501] at hs
       have hrep := List.eq_of_mem_replicate hs
       rw [hrep]
       decide)⟩

/-- C8: a classification failure during add_video is swallowed — the add
succeeds and persists the entity with its extractor tags (none); the same
failure during an explicit classify_video propagates as an error leaving
the state unchanged; a successful explicit classify returns the new tags
and overwrites the stored entity's entire tag set. -/
theorem classification_failure_policy :
    (∀ (st : ServiceState) (url vid : String) (v : Video)
        (extract : String → Except Unit Video)
        (cfail : String → String → String → Except Unit (List String)),
      YouTubeExtractor.parse_video_id url = some vid →
      SQLiteVideoRepository.existsVideo st.repo vid = false →
      extract url = .ok v → v.video_id = vid → v.tags = [] →
      st.llmAvailable = true →
      cfail v.title v.description v.channel = .error () →
      (add_video st url extract cfail).2 = .ok v ∧
      SQLiteVideoRepository.get
        (add_video st url extract cfail).1.repo vid = some v) ∧
    (∀ (st : ServiceState) (vid : String) (w : Video)
        (cfail : String → String → String → Except Unit (List String)),
      SQLiteVideoRepository.get st.repo vid = some w →
      st.llmAvailable = true →
      cfail w.title w.description w.channel = .error () →
      classify_video st vid cfail = (st, .error .llmFailed)) ∧
    (∀ (st : ServiceState) (vid : String) (w : Video)
        (cok : String → String → String → Except Unit (List String))
        (tags : List String),
      SQLiteVideoRepository.get st.repo vid = some w →
      st.llmAvailable = true →
      cok w.title w.description w.channel = .ok tags →
      (classify_video st vid cok).2 = .ok tags ∧
      SQLiteVideoRepository.get
        (classify_video st vid cok).1.repo vid =
        some { w with tags := tags }) := by
  refine ⟨?_, ?_, ?_⟩
  · intro st url vid v extract cfail hp hnew hex hvid htags hllm hcf
    unfold add_video
    simp only [hp, hnew, Bool.false_eq_true, if_false, hex, hllm, hcf, if_true,
      eq_self_iff_true]
    constructor
    · trivial
    · show SQLiteVideoRepository.get (SQLiteVideoRepository.save st.repo v) vid = some v
      rw [← hvid]
      exact SQLiteVideoRepository.get_save_new st.repo v (by rw [hvid]; exact hnew)
  · intro st vid w cfail hw hllm hcf
    unfold classify_video
    rw [hw]
    simp only [hllm, Bool.not_true, Bool.false_eq_true, if_false, hcf]
  · intro st vid w cok tags hw hllm hok
    have hpred := List.find?_some hw
    have hwv : w.video_id = vid := by simpa using hpred
    unfold classify_video
    rw [hw]
    simp only [hllm, Bool.not_true, Bool.false_eq_true, if_false, hok]
    constructor
    · trivial
    · show SQLiteVideoRepository.get
        (SQLiteVideoRepository.save st.repo { w with tags := tags }) vid =
        some { w with tags := tags }
      have hg : SQLiteVideoRepository.get st.repo
          ({ w with tags := tags } : Video).video_id = some w := by
        show SQLiteVideoRepository.get st.repo w.video_id = some w
        rw [hwv]; exact hw
      have h3 : SQLiteVideoRepository.get
          (SQLiteVideoRepository.save st.repo { w with tags := tags }) w.video_id =
          some { w with tags := tags } :=
        SQLiteVideoRepository.get_save_same st.repo { w with tags := tags } w hg
      rw [← hwv]
      exact h3

/-- C8 witness: a failing classifier on add and on explicit classify, and
a succeeding explicit classify overwriting the tag set. -/
theorem classification_failure_policy_witness :
    ((add_video
        { repo := [vidA], vectorstore := none, llmAvailable := true }
        "https://youtu.be/ddddddddddd" wExtract wClassifyFail).2 = .ok wNewVideo ∧
      SQLiteVideoRepository.get
        (add_video
          { repo := [vidA], vectorstore := none, llmAvailable := true }
          "https://youtu.be/ddddddddddd" wExtract wClassifyFail).1.repo
        "ddddddddddd" = some wNewVideo) ∧
    (classify_video wStateLLM "aaaaaaaaaaa" wClassifyFail =
      (wStateLLM, .error .llmFailed)) ∧
    ((classify_video wStateLLM "aaaaaaaaaaa" wClassifyOk).2 = .ok ["ml", "intro"] ∧
      SQLiteVideoRepository.get
        (classify_video wStateLLM "aaaaaaaaaaa" wClassifyOk).1.repo
        "aaaaaaaaaaa" = some { vidA with tags := ["ml", "intro"] }) :=
  ⟨classification_failure_policy.1
      { repo := [vidA], vectorstore := none, llmAvailable := true }
      "https://youtu.be/ddddddddddd" "ddddddddddd" wNewVideo wExtract wClassifyFail
      (by decide) (by decide) rfl rfl rfl rfl rfl,
   classification_failure_policy.2.1 wStateLLM "aaaaaaaaaaa" vidA wClassifyFail
      (by decide) rfl rfl,
   classification_failure_policy.2.2 wStateLLM "aaaaaaaaaaa" vidA wClassifyOk
      ["ml", "intro"] (by decide) rfl rfl⟩

/-- C9: saving a record whose identifier is already stored overwrites
title, description, channel, duration, thumbnail, chapters, transcript and
tags while keeping the stored creation timestamp. -/
theorem save_preserves_added_at (repo : List Video) (v r : Video)
    (h : SQLiteVideoRepository.get repo v.video_id = some r) :
    SQLiteVideoRepository.get (SQLiteVideoRepository.save repo v) v.video_id =
      some { video_id := v.video_id, title := v.title, description := v.description,
             channel := v.channel, duration := v.duration,
             thumbnail_url := v.thumbnail_url, chapters := v.chapters,
             transcript := v.transcript, tags := v.tags, added_at := r.added_at } :=
  SQLiteVideoRepository.get_save_same repo v r h

/-- C9 witness: a re-save with all fields changed keeps the original
creation timestamp. -/
theorem save_preserves_added_at_witness :
    SQLiteVideoRepository.get (SQLiteVideoRepository.save wRepo vidA2) vidA2.video_id =
      some { video_id := vidA2.video_id, title := vidA2.title,
             description := vidA2.description, channel := vidA2.channel,
             duration := vidA2.duration, thumbnail_url := vidA2.thumbnail_url,
             chapters := vidA2.chapters, transcript := vidA2.transcript,
             tags := vidA2.tags, added_at := vidA.added_at } :=
  save_preserves_added_at wRepo vidA2 vidA (by decide)

/-- C10: index_video returns the number of segments whose trimmed text is
non-empty (blank segments are skipped); for a non-empty input the
identifier's stored fragments are exactly the built ones, and position j
has a stored fragment with key suffix j exactly when segment j is
non-blank — keys keep original positions, so suffixes can jump. -/
theorem index_video_skips_blank (st : List Fragment) (vid : String)
    (segs : List TranscriptSegment) :
    (index_video st vid segs).2 =
      (segs.filter (fun s => !((strTrim s.text).isEmpty))).length ∧
    (segs ≠ [] →
      ((index_video st vid segs).1.filter (fun f => f.video_id == vid) =
        buildFragments vid segs) ∧
      ∀ j seg, segs[j]? = some seg →
        (((strTrim seg.text).isEmpty = false →
            segFragment vid j seg ∈ (index_video st vid segs).1) ∧
         ((strTrim seg.text).isEmpty = true →
            ∀ f ∈ (index_video st vid segs).1, f.video_id = vid →
              f.segment_index ≠ j))) := by
  refine ⟨index_video_count st vid segs,
    fun hne => ⟨filter_owner_index st vid segs hne, ?_⟩⟩
  intro j seg hj
  constructor
  · intro hnb
    have hmem : segFragment vid j seg ∈ buildFragments vid segs := by
      rw [buildFragments, mem_buildFrom_iff]
      exact ⟨j, seg, hj, hnb, by rw [Nat.zero_add]⟩
    rw [← filter_owner_index st vid segs hne] at hmem
    exact List.mem_of_mem_filter hmem
  · intro hb f hf hfv heq
    have hmem : f ∈ buildFragments vid segs := by
      rw [← filter_owner_index st vid segs hne]
      exact List.mem_filter.mpr ⟨hf, by simp [hfv]⟩
    rw [buildFragments, mem_buildFrom_iff] at hmem
    obtain ⟨j2, s2, hj2, hnb2, hfe⟩ := hmem
    have hsi : f.segment_index = j2 := by rw [hfe]; simp [segFragment]
    rw [heq] at hsi
    rw [← hsi] at hj2
    rw [hj] at hj2
    have hss : seg = s2 := Option.some.inj hj2
    rw [← hss] at hnb2
    rw [hb] at hnb2
    cases hnb2

/-- C10 witness: a blank middle segment is skipped and the count drops
to 2 while suffixes 0 and 2 survive. -/
theorem index_video_skips_blank_witness :
    (index_video [] "v" [segHello, segBlank, segWorld]).2 =
      ([segHello, segBlank, segWorld].filter
        (fun s => !((strTrim s.text).isEmpty))).length ∧
    ((index_video [] "v" [segHello, segBlank, segWorld]).1.filter
        (fun f => f.video_id == "v") =
      buildFragments "v" [segHello, segBlank, segWorld]) :=
  ⟨(index_video_skips_blank [] "v" [segHello, segBlank, segWorld]).1,
   ((index_video_skips_blank [] "v" [segHello, segBlank, segWorld]).2
      (by simp)).1⟩
